import Mathlib

/-!
Verification of the llmrouter dispatch pipeline against its specification.

This file shallowly embeds the core of the repository:
* `lib/file/data_handler.py` — the producer/consumer pipeline
  (`DataHandler._consumer`, `load_data_with_queue`,
  `producer_consumer_executor`), the buffered asynchronous writer
  (`AsyncDataWriter`), and the read-mode selection
  (`DataHandler._process_data_by_mode`);
* `client/rest/rest_inference_client.py` — the HTTP inference consumer
  (`RESTInferenceClient.http_inference_consumer`);
* `lib/rest_client/report_generator.py` — the report aggregator
  (`RequestReportGenerator`).

Python dicts holding outcome data are embedded as fixed Lean structures
carrying exactly the fields the modelled code reads and writes; wall-clock
times are modelled as abstract `Nat` readings supplied by the environment;
`random.sample` results are supplied as an oracle constrained by the
properties the Python standard library guarantees.
-/

namespace LLMRouter

/-! ## Pipeline consumer numbering (`DataHandler._consumer`)

`_consumer` keeps a local `processed_count`, initialised to `0`, and calls
`consumer_func(data, worker_id, processed_count + 1, ...)` for each item it
dequeues, incrementing `processed_count` afterwards.  The counter is local to
each consumer coroutine.  `consumerLoop k items` returns the `(item,
request_num)` pairs produced by one consumer that has already processed `k`
items and goes on to process `items` in queue order. -/
def consumerLoop (k : Nat) : List α → List (α × Nat)
  | [] => []
  | x :: rest => (x, k + 1) :: consumerLoop (k + 1) rest

/-- Outcomes of a whole run: `parts` assigns to each consumer worker the list
of data items it dequeues (in the order it dequeues them); every worker starts
its own `processed_count` at `0` as in `DataHandler._consumer`. -/
def runOutcomes (parts : List (List α)) : List (α × Nat) :=
  (parts.map (consumerLoop 0)).flatten

/-- The `request_num` values recorded with the outcomes of a run. -/
def runSeqNums (parts : List (List α)) : List Nat :=
  (runOutcomes parts).map Prod.snd

/-! ## End-of-stream sentinel protocol (`DataHandler.load_data_with_queue`)

The producer enqueues every data item and then a single `None` sentinel
(`await queue.put(None)`), regardless of how many consumers were started.
A consumer (`DataHandler._consumer`) loops on `data_queue.get()` and breaks
out of its loop exactly when the value it receives is `None`; it never puts
the sentinel back into the queue. -/
def producedStream (data : List α) : List (Option α) :=
  data.map some ++ [none]

/-- `parts` is a possible delivery of the queue contents `stream` to the
consumers: each enqueued value is handed to exactly one consumer. -/
def isDelivery (stream : List (Option α)) (parts : List (List (Option α))) : Prop :=
  parts.flatten.Perm stream

/-- A consumer terminates exactly when the values it dequeues include the
`None` sentinel, since its loop breaks only on `None`. -/
def allConsumersTerminate (parts : List (List (Option α))) : Prop :=
  ∀ p ∈ parts, none ∈ p

theorem consumerLoop_map_snd (k : Nat) (items : List α) :
    (consumerLoop k items).map Prod.snd = List.range' (k + 1) items.length := by
  induction items generalizing k with
  | nil => rfl
  | cons x rest ih =>
      simp [consumerLoop, List.range'_succ, ih]

theorem runSeqNums_single (items : List α) :
    runSeqNums [items] = List.range' 1 items.length := by
  simp [runSeqNums, runOutcomes, consumerLoop_map_snd]

theorem runSeqNums_eq (parts : List (List α)) :
    runSeqNums parts = (parts.map (fun p => List.range' 1 p.length)).flatten := by
  induction parts with
  | nil => rfl
  | cons p rest ih =>
      simp only [runSeqNums, runOutcomes, List.map_cons, List.flatten_cons,
        List.map_append, consumerLoop_map_snd] at *
      simp [ih]

/-- C1, counterexample: in a run with two consumer workers where each worker
dequeues one of the two records, both outcomes are recorded with
`request_num = 1`, because `DataHandler._consumer` numbers items with a
counter local to each worker.  The sequence numbers `[1, 1]` are not a
permutation of `1..2`, so they are neither unique within the run nor
gap-free. -/
theorem seqNums_two_workers_not_permutation :
    runSeqNums [[0], [1]] = [1, 1] ∧
    ¬ (runSeqNums [[0], [1]]).Perm (List.range' 1 2) := by
  constructor
  · rfl
  · decide

/-- C1, amended: sequence numbers are assigned per consumer worker, each
worker numbering the items it processes `1, 2, 3, …` with its own local
counter.  With a single consumer worker (the only configuration
`RESTInferenceClient` uses, `max_workers=1`) the recorded `request_num`
values are exactly `1..N` in queue order, hence a permutation of `1..N`
with no gaps or repeats; with several workers each worker restarts at `1`. -/
theorem seqNums_per_worker_counter :
    (∀ (α : Type) (items : List α),
        runSeqNums [items] = List.range' 1 items.length) ∧
    (∀ (α : Type) (parts : List (List α)),
        runSeqNums parts = (parts.map (fun p => List.range' 1 p.length)).flatten) :=
  ⟨fun _ => runSeqNums_single, fun _ => runSeqNums_eq⟩

/-- C2, counterexample: with two consumer workers over a one-record source,
the delivery in which the first worker receives the data record and the
second worker receives the single `None` sentinel is a possible delivery of
the produced queue contents, yet the first worker never receives a sentinel
and therefore never leaves its `while True` loop: not every consumer
terminates. -/
theorem two_consumers_one_sentinel_no_termination :
    isDelivery (producedStream [0]) [[some 0], [(none : Option Nat)]] ∧
    ¬ allConsumersTerminate [[some 0], [(none : Option Nat)]] := by
  constructor
  · simp [isDelivery, producedStream]
  · intro h
    have h0 := h [some 0] (by simp)
    simp at h0

/-- C2, amended: `DataHandler.load_data_with_queue` enqueues exactly one
`None` sentinel after the data records, regardless of how many consumers
were started, and `DataHandler._consumer` never re-enqueues it.  With a
single consumer (the only configuration the client uses) that consumer
receives the whole stream, including the trailing sentinel, and therefore
terminates; `producer_consumer_executor` gathers the producer and all
consumers, so it returns only after the producer has exhausted the source
and the consumer has drained the queue and exited. -/
theorem single_sentinel_single_consumer_terminates :
    ∀ (α : Type) (data : List α),
      ((producedStream data).filter (fun v => v.isNone)).length = 1 ∧
      isDelivery (producedStream data) [producedStream data] ∧
      allConsumersTerminate [producedStream data] := by
  intro α data
  refine ⟨?_, ?_, ?_⟩
  · induction data with
    | nil => rfl
    | cons x rest ih =>
        simp only [producedStream, List.map_cons, List.cons_append,
          List.filter_cons] at ih ⊢
        simp only [Option.isNone_some, Bool.false_eq_true, if_false] at ih ⊢
        exact ih
  · simp [isDelivery]
  · intro p hp
    simp only [List.mem_singleton] at hp
    subst hp
    simp [producedStream]

/-! ## AsyncDataWriter (`lib/file/data_handler.py`)

The writer task `_writer_loop` repeatedly dequeues from `write_queue`.  Each
dequeued value is either a data item or the `None` end marker put by
`stop()`.  For each data item it appends one JSON line to the file,
increments `total_written`, and then evaluates the flush conditions:

* count condition — `self.flush_count > 0 and
  self.write_queue.qsize() >= self.flush_count` (the number of items still
  pending in the queue after this one was dequeued);
* time condition — `self.flush_interval > 0 and
  current_time - self.last_flush_time >= self.flush_interval`, where
  `last_flush_time` starts at `0` and is updated only when the time
  condition itself fires.

On the `None` marker it breaks out of the loop and performs one final
`flush()`.  A `WriteEvent` records one dequeue together with the two
environment readings the loop makes for it: `write_queue.qsize()` and
`time.time()` (modelled as abstract `Nat` ticks). -/
structure WriteEvent (α : Type) where
  item : Option α
  qsize : Nat
  time : Nat
  deriving DecidableEq

/-- Observable outcome of one run of `AsyncDataWriter._writer_loop`:
the data lines appended to the file in order, the per-item flush decisions,
whether the loop reached the final flush after the end marker, and the final
value of `total_written`. -/
structure WriterResult (α : Type) where
  written : List α
  flushes : List Bool
  finalFlush : Bool
  totalWritten : Nat
  deriving DecidableEq

/-- Embeds `AsyncDataWriter._writer_loop`, folding over the sequence of
dequeued values.  `lastFlushTime` and `totalWritten` carry
`self.last_flush_time` and `self.total_written`. -/
def writerLoop (flushCount flushInterval lastFlushTime totalWritten : Nat) :
    List (WriteEvent α) → WriterResult α
  | [] => ⟨[], [], false, totalWritten⟩
  | e :: rest =>
    match e.item with
    | none => ⟨[], [], true, totalWritten⟩
    | some x =>
        let countTrigger := decide (0 < flushCount) && decide (flushCount ≤ e.qsize)
        let timeTrigger :=
          decide (0 < flushInterval) && decide (flushInterval ≤ e.time - lastFlushTime)
        let lastFlushTime2 := if timeTrigger then e.time else lastFlushTime
        let r := writerLoop flushCount flushInterval lastFlushTime2 (totalWritten + 1) rest
        ⟨x :: r.written, (countTrigger || timeTrigger) :: r.flushes, r.finalFlush,
          r.totalWritten⟩

/-- A fresh writer run: `__init__` sets `last_flush_time = 0` and
`total_written = 0`. -/
def writerRun (flushCount flushInterval : Nat) (events : List (WriteEvent α)) :
    WriterResult α :=
  writerLoop flushCount flushInterval 0 0 events

/-- Modelled from the claim's words (C4): a flush is issued exactly when `N`
items have been written since the last flush (`flushCount`), or `T` time
units have elapsed since the last flush (`flushInterval`); a zero threshold
disables that trigger.  `sinceCount` counts items written since the last
flush and both it and `lastFlushTime` reset whenever either trigger fires. -/
def claimedFlushDecisions (flushCount flushInterval sinceCount lastFlushTime : Nat) :
    List (WriteEvent α) → List Bool
  | [] => []
  | e :: rest =>
    match e.item with
    | none => []
    | some _ =>
        let flush := (0 < flushCount ∧ flushCount ≤ sinceCount + 1) ∨
          (0 < flushInterval ∧ flushInterval ≤ e.time - lastFlushTime)
        if flush then
          decide flush :: claimedFlushDecisions flushCount flushInterval 0 e.time rest
        else
          decide flush ::
            claimedFlushDecisions flushCount flushInterval (sinceCount + 1) lastFlushTime rest

/-- Modelled from the amended claim (C4): after writing an item the loop
flushes exactly when `flushCount > 0` and at least `flushCount` items are
still pending in the queue, or `flushInterval > 0` and the current time
reading minus the time of the last time-triggered flush (initially `0`, the
epoch) is at least `flushInterval`. -/
def amendedFlushDecisions (flushCount flushInterval lastTimeFlush : Nat) :
    List (WriteEvent α) → List Bool
  | [] => []
  | e :: rest =>
    match e.item with
    | none => []
    | some _ =>
        let flush := (0 < flushCount ∧ flushCount ≤ e.qsize) ∨
          (0 < flushInterval ∧ flushInterval ≤ e.time - lastTimeFlush)
        let nextLTF :=
          if 0 < flushInterval ∧ flushInterval ≤ e.time - lastTimeFlush
          then e.time else lastTimeFlush
        decide flush :: amendedFlushDecisions flushCount flushInterval nextLTF rest

theorem writerLoop_flushes_eq_amended (fc fi lf tw : Nat) (events : List (WriteEvent α)) :
    (writerLoop fc fi lf tw events).flushes = amendedFlushDecisions fc fi lf events := by
  induction events generalizing lf tw with
  | nil => rfl
  | cons e rest ih =>
      cases h : e.item with
      | none => simp [writerLoop, amendedFlushDecisions, h]
      | some x =>
          simp only [writerLoop, amendedFlushDecisions, h]
          by_cases ht : 0 < fi ∧ fi ≤ e.time - lf
          · have hb : (decide (0 < fi) && decide (fi ≤ e.time - lf)) = true := by
              simp [ht.1, ht.2]
            simp only [hb, if_pos ht, if_true]
            refine List.cons_eq_cons.mpr ⟨?_, ih e.time (tw + 1)⟩
            simp [ht.1, ht.2]
          · have hb : (decide (0 < fi) && decide (fi ≤ e.time - lf)) = false := by
              rcases Decidable.not_and_iff_or_not.mp ht with h1 | h1 <;> simp [h1]
            simp only [hb, if_neg ht, Bool.false_eq_true, if_false]
            refine List.cons_eq_cons.mpr ⟨?_, ih lf (tw + 1)⟩
            simp [Bool.decide_and, ht]

theorem writerLoop_drains (fc fi : Nat) (pre : List (α × Nat × Nat))
    (sq ts : Nat) (post : List (WriteEvent α)) :
    ∀ lf tw : Nat,
      (writerLoop fc fi lf tw
          (pre.map (fun y => WriteEvent.mk (some y.1) y.2.1 y.2.2) ++
            WriteEvent.mk none sq ts :: post)).written = pre.map Prod.fst ∧
      (writerLoop fc fi lf tw
          (pre.map (fun y => WriteEvent.mk (some y.1) y.2.1 y.2.2) ++
            WriteEvent.mk none sq ts :: post)).finalFlush = true ∧
      (writerLoop fc fi lf tw
          (pre.map (fun y => WriteEvent.mk (some y.1) y.2.1 y.2.2) ++
            WriteEvent.mk none sq ts :: post)).totalWritten = tw + pre.length := by
  induction pre with
  | nil => intro lf tw; simp [writerLoop]
  | cons y pre ih =>
      intro lf tw
      rcases ih (if 0 < fi ∧ fi ≤ y.2.2 - lf then y.2.2 else lf) (tw + 1)
        with ⟨hw, hf, ht⟩
      refine ⟨?_, ?_, ?_⟩
      · simp only [List.map_cons, List.cons_append, writerLoop]
        simp [hw]
      · simp only [List.map_cons, List.cons_append, writerLoop]
        simp [hf]
      · simp only [List.map_cons, List.cons_append, writerLoop]
        simp [ht]
        omega

/-- C3: every outcome enqueued through `write_data` before `stop()` is called
sits in the FIFO queue ahead of the `None` end marker that `stop()` enqueues,
so the writer loop writes all of them, performs the final flush, and only
then lets `stop()` return — for any flush-count and flush-interval setting
and any queue-size and clock readings.  In particular a run of 25 outcomes
with flush-count 10 leaves exactly 25 lines in the file. -/
theorem stop_drains_all_pending_writes :
    (∀ (α : Type) (flushCount flushInterval : Nat) (pre : List (α × Nat × Nat))
        (sq ts : Nat) (post : List (WriteEvent α)),
        (writerRun flushCount flushInterval
            (pre.map (fun y => WriteEvent.mk (some y.1) y.2.1 y.2.2) ++
              WriteEvent.mk none sq ts :: post)).written = pre.map Prod.fst ∧
        (writerRun flushCount flushInterval
            (pre.map (fun y => WriteEvent.mk (some y.1) y.2.1 y.2.2) ++
              WriteEvent.mk none sq ts :: post)).finalFlush = true ∧
        (writerRun flushCount flushInterval
            (pre.map (fun y => WriteEvent.mk (some y.1) y.2.1 y.2.2) ++
              WriteEvent.mk none sq ts :: post)).totalWritten = pre.length) ∧
    (writerRun 10 1
        ((List.range 25).map (fun i => WriteEvent.mk (some i) (24 - i) i) ++
          [WriteEvent.mk none 0 25])).written.length = 25 := by
  constructor
  · intro α fc fi pre sq ts post
    simpa [writerRun] using writerLoop_drains fc fi pre sq ts post 0 0
  · decide

/-- C4, counterexample: with `flush_count = 1` and `flush_interval = 0`,
after one item is written (so one item has been written since the last
flush), the source's writer loop does not flush, because its count condition
tests the number of items still pending in the queue
(`write_queue.qsize() >= flush_count`, here `0 >= 1`), not the number of
items written since the last flush as the claim states — the claim's own
reading of the trigger (`claimedFlushDecisions`) flushes here. -/
theorem flush_count_tests_queue_backlog_not_items_written :
    (writerRun 1 0 [WriteEvent.mk (some 0) 0 5]).flushes = [false] ∧
    claimedFlushDecisions 1 0 0 0 [WriteEvent.mk (some (0 : Nat)) 0 5] = [true] := by
  constructor
  · decide
  · decide

/-- C4, amended: after writing each item the writer loop issues a flush
exactly when `flush_count > 0` and at least `flush_count` items are still
pending in the queue at that moment, or `flush_interval > 0` and the time
elapsed since the last time-triggered flush (initially the epoch, since
`last_flush_time` starts at `0` and is only updated when the time condition
fires) is at least `flush_interval`; setting either threshold to zero
disables that trigger, and with both thresholds zero no flush is issued
until the final flush on shutdown. -/
theorem flush_triggers_characterised :
    (∀ (α : Type) (flushCount flushInterval : Nat) (events : List (WriteEvent α)),
        (writerRun flushCount flushInterval events).flushes =
          amendedFlushDecisions flushCount flushInterval 0 events) ∧
    (∀ (α : Type) (events : List (WriteEvent α)),
        ∀ b ∈ (writerRun 0 0 events).flushes, b = false) := by
  constructor
  · intro α fc fi events
    exact writerLoop_flushes_eq_amended fc fi 0 0 events
  · intro α events
    have h := writerLoop_flushes_eq_amended (α := α) 0 0 0 0 events
    rw [writerRun, h]
    clear h
    induction events with
    | nil => intro b hb; simp [amendedFlushDecisions] at hb
    | cons e rest ih =>
        intro b hb
        cases he : e.item with
        | none => simp [amendedFlushDecisions, he] at hb
        | some x =>
            simp [amendedFlushDecisions, he] at hb
            rcases hb with hb | hb
            · simp [hb]
            · exact ih b hb

/-! ## AsyncDataWriter control state (`start` / `stop` / `write_data`)

`__init__` sets `is_running = False`, an empty `write_queue` and
`total_written = 0`.  `start()` sets `is_running = True` (a second call is a
no-op).  `stop()` returns immediately when not running; otherwise it
enqueues the `None` end marker, awaits the writer task — which drains every
pending item, as proved above — and then sets `is_running = False`.
`write_data` first checks `if not self.is_running: raise RuntimeError(...)`
and only on the running path enqueues the item. -/
structure AsyncDataWriter (α : Type) where
  is_running : Bool
  write_queue : List α
  total_written : Nat
  deriving DecidableEq

/-- State after `AsyncDataWriter.__init__`. -/
def AsyncDataWriter.init : AsyncDataWriter α :=
  ⟨false, [], 0⟩

/-- Embeds `AsyncDataWriter.start`. -/
def AsyncDataWriter.start (w : AsyncDataWriter α) : AsyncDataWriter α :=
  if w.is_running then w else { w with is_running := true }

/-- Embeds `AsyncDataWriter.stop`: when running, the writer task drains the
whole queue (writing every pending item) before `is_running` is cleared. -/
def AsyncDataWriter.stop (w : AsyncDataWriter α) : AsyncDataWriter α :=
  if w.is_running then
    { is_running := false, write_queue := [],
      total_written := w.total_written + w.write_queue.length }
  else w

/-- Embeds `AsyncDataWriter.write_data`: the returned `Option String` is the
raised `RuntimeError` message, `none` meaning a normal return. -/
def AsyncDataWriter.write_data (w : AsyncDataWriter α) (x : α) :
    AsyncDataWriter α × Option String :=
  if w.is_running then
    ({ w with write_queue := w.write_queue ++ [x] }, none)
  else
    (w, some "RuntimeError: writer not started")

/-- C10: calling `write_data` on a writer that is not running — which is the
state both straight after `__init__` (before `start()`) and after `stop()`
has completed — raises a `RuntimeError` and leaves the whole writer state,
queue and `total_written` counter included, unchanged; the item is never
silently enqueued or counted. -/
theorem write_data_not_running_raises :
    (∀ (α : Type) (w : AsyncDataWriter α) (x : α), w.is_running = false →
        (w.write_data x).1 = w ∧
        (w.write_data x).2 = some "RuntimeError: writer not started") ∧
    (∀ (α : Type), (AsyncDataWriter.init : AsyncDataWriter α).is_running = false) ∧
    (∀ (α : Type) (w : AsyncDataWriter α), w.stop.is_running = false) := by
  refine ⟨?_, ?_, ?_⟩
  · intro α w x h
    simp [AsyncDataWriter.write_data, h]
  · intro α
    rfl
  · intro α w
    cases hw : w.is_running <;> simp [AsyncDataWriter.stop, hw]

/-- Witness for C10 at a concrete state: the freshly initialised writer over
`Nat` is not running, and `write_data` on it raises and leaves it
unchanged; similarly for a stopped writer that was running with a pending
queue. -/
theorem write_data_not_running_raises_witness :
    ((AsyncDataWriter.init : AsyncDataWriter Nat).write_data 7).1 =
        AsyncDataWriter.init ∧
    ((AsyncDataWriter.init : AsyncDataWriter Nat).write_data 7).2 =
        some "RuntimeError: writer not started" :=
  write_data_not_running_raises.1 Nat AsyncDataWriter.init 7 rfl

/-! ## HTTP inference consumer (`RESTInferenceClient.http_inference_consumer`)

The consumer wraps the whole dispatch in `try/except Exception`.  On success
`client.post` returns a dict with `status`, `data`, `headers`, `request_id`
and `duration_ms`; the consumer records it with the report generator,
enqueues a response record to the async writer and returns a result dict.
On any exception it logs, builds the dict
`{'status': 500, 'error': str(e), 'request_id': 'unknown', 'duration_ms': 0}`,
records that with the report generator, enqueues an error record to the
async writer, and returns normally.  The dispatch attempt is embedded as an
`Except String (HttpResponse β)`: `Except.error e` stands for `client.post`
raising a transport-level exception with text `e`. -/
structure HttpResponse (β : Type) where
  status : Int
  data : β
  request_id : String
  duration_ms : ℚ
  deriving DecidableEq

/-- One entry of `RequestReportGenerator.requests`, carrying the fields the
aggregator and the claims read: `status` and `duration_ms` (via
`req.get(..., 0)`), plus the error text placed under the `error` key by the
failure path (`none` models an absent key). -/
structure RequestEntry where
  status : Int
  duration_ms : ℚ
  error : Option String
  request_id : String
  deriving DecidableEq

/-- The report entry built from a successful `client.post` response dict
(which carries no `error` key). -/
def RequestEntry.ofResponse (r : HttpResponse β) : RequestEntry :=
  ⟨r.status, r.duration_ms, none, r.request_id⟩

/-- One record handed to `response_writer.write_data` by the consumer:
`ok` is the success-path `response_data` dict and `err` the failure-path
`error_data` dict (which carries the error text but no response). -/
inductive SinkRecord (β : Type) where
  | ok (worker_id request_num : Nat) (request_id : String)
      (response : HttpResponse β) (timestamp : Nat)
  | err (worker_id request_num : Nat) (request_id : String)
      (error : String) (timestamp : Nat)
  deriving DecidableEq

/-- The value `http_inference_consumer` returns to `DataHandler._consumer`
(collected into `results`). -/
inductive ConsumerReturn (β : Type) where
  | ok (worker_id request_num : Nat) (request_id : String)
      (response : HttpResponse β)
  | err (worker_id request_num : Nat) (request_id : String) (error : String)
  deriving DecidableEq

/-- Shared mutable context the consumer touches: the report generator's
`requests` list and the records written through the async writer. -/
structure ConsumerCtx (β : Type) where
  report : List RequestEntry
  sink : List (SinkRecord β)
  deriving DecidableEq

/-- Embeds `RESTInferenceClient.http_inference_consumer`.  `now` is the
`time.time()` reading used for the record's timestamp.  The `Except` in the
result models exception propagation out of the coroutine: since the body is
one `try/except Exception` that returns in both branches, every input
produces `Except.ok`. -/
def http_inference_consumer (worker_id request_num : Nat)
    (attempt : Except String (HttpResponse β)) (now : Nat)
    (ctx : ConsumerCtx β) :
    Except String (ConsumerReturn β × ConsumerCtx β) :=
  match attempt with
  | Except.ok resp =>
      Except.ok
        (ConsumerReturn.ok worker_id request_num resp.request_id resp,
         ⟨ctx.report ++ [RequestEntry.ofResponse resp],
          ctx.sink ++
            [SinkRecord.ok worker_id request_num resp.request_id resp now]⟩)
  | Except.error e =>
      Except.ok
        (ConsumerReturn.err worker_id request_num "unknown" e,
         ⟨ctx.report ++ [⟨500, 0, some e, "unknown"⟩],
          ctx.sink ++ [SinkRecord.err worker_id request_num "unknown" e now]⟩)

/-- C5: when the dispatch attempt raises a transport-level error, the
consumer returns normally (no exception escapes): the outcome it records in
the report aggregator carries the failure sentinel status `500`, the error
text as its body and `duration_ms = 0`, an error record for the same
request is appended to the sink, and exactly one outcome is added to the
aggregator, like any other request. -/
theorem transport_error_recorded_as_outcome :
    ∀ (β : Type) (worker_id request_num : Nat) (e : String) (now : Nat)
      (ctx : ConsumerCtx β),
      http_inference_consumer worker_id request_num (Except.error e) now ctx =
        Except.ok
          (ConsumerReturn.err worker_id request_num "unknown" e,
           ⟨ctx.report ++ [⟨500, 0, some e, "unknown"⟩],
            ctx.sink ++
              [SinkRecord.err worker_id request_num "unknown" e now]⟩) ∧
      (∀ ret ctx2,
          http_inference_consumer worker_id request_num (Except.error e) now
              ctx = Except.ok (ret, ctx2) →
          ctx2.report.length = ctx.report.length + 1 ∧
          ctx2.sink.length = ctx.sink.length + 1) := by
  intro β worker_id request_num e now ctx
  refine ⟨rfl, ?_⟩
  intro ret ctx2 h
  simp only [http_inference_consumer, Except.ok.injEq, Prod.mk.injEq] at h
  rcases h with ⟨-, h2⟩
  subst h2
  simp

/-- Witness for C5 at a concrete input: dispatching with a transport error
"timeout" from the empty context records exactly one aggregator entry and
one sink record. -/
theorem transport_error_recorded_as_outcome_witness :
    (⟨[(⟨500, 0, some "timeout", "unknown"⟩ : RequestEntry)],
        [SinkRecord.err 0 1 "unknown" "timeout" 3]⟩ : ConsumerCtx Nat).report.length =
      ([] : List RequestEntry).length + 1 ∧
    (⟨[(⟨500, 0, some "timeout", "unknown"⟩ : RequestEntry)],
        [SinkRecord.err 0 1 "unknown" "timeout" 3]⟩ : ConsumerCtx Nat).sink.length =
      ([] : List (SinkRecord Nat)).length + 1 :=
  (transport_error_recorded_as_outcome Nat 0 1 "timeout" 3 ⟨[], []⟩).2
    (ConsumerReturn.err 0 1 "unknown" "timeout")
    ⟨[(⟨500, 0, some "timeout", "unknown"⟩ : RequestEntry)],
      [SinkRecord.err 0 1 "unknown" "timeout" 3]⟩ rfl

/-! ## Report generator (`lib/rest_client/report_generator.py`)

Durations are exact rationals here; Python computes with IEEE doubles, but
every concrete value the claims mention (`p50` of `[10, 20, 30, 40]`, all
percentiles of `[5]`) is exactly representable and exactly computed in
binary floating point too, since the only fraction involved is `1/2` or
`0`.  `int(index)` in `_percentile` truncates toward zero; for the
nonnegative indices that arise (`p ≥ 0`, nonempty data) truncation and
floor agree, and the embedding uses the floor. -/

/-- Embeds `RequestReportGenerator._percentile`.  `index.den = 1` embeds
`float.is_integer()`; the floor with `toNat` embeds `int(index)`, which
truncates toward zero and therefore agrees with the floor on the
nonnegative indices that occur (`p ≥ 0`, nonempty data). -/
def percentile (data : List ℚ) (p : ℚ) : ℚ :=
  if data = [] then 0
  else
    let index : ℚ := (p / 100) * ((data.length : ℚ) - 1)
    if index.den = 1 then data.getD ⌊index⌋.toNat 0
    else
      let lower := data.getD ⌊index⌋.toNat 0
      let upper := data.getD (⌊index⌋.toNat + 1) 0
      lower + (upper - lower) * (index - (⌊index⌋ : ℚ))

/-- Modelled from the spec sentence for C6, written from its words rather
than from the source: for sorted durations `d[0..n-1]` and percentile `p`,
`index = (p/100)*(n-1)`; if `index` is integral (equal to its floor) the
result is `d[index]`, otherwise the linear interpolation between the two
bracketing entries. -/
def percentileSpec (d : List ℚ) (p : ℚ) : ℚ :=
  let index : ℚ := (p / 100) * ((d.length : ℚ) - 1)
  if (⌊index⌋ : ℚ) = index then d.getD ⌊index⌋.toNat 0
  else
    d.getD ⌊index⌋.toNat 0 +
      (d.getD (⌊index⌋.toNat + 1) 0 - d.getD ⌊index⌋.toNat 0) *
        (index - (⌊index⌋ : ℚ))

/-- Embeds the per-request status-count accumulation
`status_counts[status] = status_counts.get(status, 0) + 1`, preserving the
Python dict's insertion order. -/
def bumpCount : List (Int × Nat) → Int → List (Int × Nat)
  | [], s => [(s, 1)]
  | (k, c) :: rest, s =>
      if k = s then (k, c + 1) :: rest else (k, c) :: bumpCount rest s

/-- `min(durations)` over a nonempty list (`0` never occurs: the branch is
guarded by nonemptiness). -/
def listMin : List ℚ → ℚ
  | [] => 0
  | x :: xs => xs.foldl min x

/-- `max(durations)` over a nonempty list. -/
def listMax : List ℚ → ℚ
  | [] => 0
  | x :: xs => xs.foldl max x

/-- The `duration_stats` dict computed by `generate_report` when at least
one positive duration was recorded. -/
structure DurationStats where
  min_ms : ℚ
  max_ms : ℚ
  avg_ms : ℚ
  p50_ms : ℚ
  p80_ms : ℚ
  p90_ms : ℚ
  p95_ms : ℚ
  p99_ms : ℚ
  deriving DecidableEq

/-- The report dict returned by `generate_report`; `duration_stats = none`
embeds the empty `{}` dict, `status_code_counts` keeps the Python dict's
insertion order.  The human-readable `summary` string is presentation only
and not modelled. -/
structure Report where
  total_requests : Nat
  status_code_counts : List (Int × Nat)
  duration_stats : Option DurationStats
  deriving DecidableEq

/-- Embeds `RequestReportGenerator.generate_report`: the early return for no
requests, the status histogram, the positive-duration filter
(`if duration > 0`), the in-place sort, and the stats dict. -/
def generate_report (requests : List RequestEntry) : Report :=
  if requests = [] then ⟨0, [], none⟩
  else
    let status_counts := requests.foldl (fun acc r => bumpCount acc r.status) []
    let durations := requests.filterMap
      (fun r => if 0 < r.duration_ms then some r.duration_ms else none)
    if durations = [] then ⟨requests.length, status_counts, none⟩
    else
      let ds := durations.insertionSort (· ≤ ·)
      ⟨requests.length, status_counts,
        some ⟨listMin ds, listMax ds, ds.sum / (ds.length : ℚ),
          percentile ds 50, percentile ds 80, percentile ds 90,
          percentile ds 95, percentile ds 99⟩⟩

/-- Embeds the requests-per-minute computation in
`RequestReportGenerator.print_report`: `rpm = 0`, and only when the report
has duration statistics and `max_ms / 1000 / 60 > 0` is
`total_requests / minutes` computed. -/
def reportRPM (r : Report) : ℚ :=
  match r.duration_stats with
  | none => 0
  | some s =>
      let total_duration_minutes := s.max_ms / 1000 / 60
      if 0 < total_duration_minutes then
        (r.total_requests : ℚ) / total_duration_minutes
      else 0

theorem den_eq_one_iff_floor (q : ℚ) : q.den = 1 ↔ (⌊q⌋ : ℚ) = q := by
  constructor
  · intro h
    have hq := (Rat.den_eq_one_iff q).mp h
    rw [← hq, Int.floor_intCast]
  · intro h
    rw [← h]
    exact Rat.den_intCast ⌊q⌋

theorem percentile_eq_spec (d : List ℚ) (p : ℚ) (h : d ≠ []) :
    percentile d p = percentileSpec d p := by
  rw [percentile, percentileSpec, if_neg h]
  by_cases hi : ((p / 100) * ((d.length : ℚ) - 1)).den = 1
  · rw [if_pos hi, if_pos ((den_eq_one_iff_floor _).mp hi)]
  · rw [if_neg hi, if_neg (fun hc => hi ((den_eq_one_iff_floor _).mpr hc))]

theorem percentile_single (x p : ℚ) : percentile [x] p = x := by
  have h : (p / 100) * (((List.length [x] : ℕ) : ℚ) - 1) = 0 := by
    simp
  simp only [percentile, h]
  norm_num

theorem percentile_four_fifty : percentile [10, 20, 30, 40] 50 = 25 := by
  have h : ((50 : ℚ) / 100) * (((List.length [(10 : ℚ), 20, 30, 40] : ℕ) : ℚ) - 1)
      = 3 / 2 := by
    simp
    norm_num
  rw [percentile, if_neg (by simp), h]
  have hden : ((3 : ℚ) / 2).den = 2 := by
    have h2 : ((((3 : ℤ) : ℚ) / ((2 : ℤ) : ℚ)).den : ℤ) = (2 : ℤ) :=
      Rat.den_div_eq_of_coprime (by norm_num) (by norm_num)
    have h3 : ((3 : ℤ) : ℚ) / ((2 : ℤ) : ℚ) = (3 : ℚ) / 2 := by norm_num
    rw [h3] at h2
    exact_mod_cast h2
  have hfl : ⌊(3 : ℚ) / 2⌋ = 1 := by norm_num
  rw [if_neg (by rw [hden]; omega), hfl]
  norm_num

theorem listMax_pos (l : List ℚ) (hne : l ≠ []) (hpos : ∀ x ∈ l, 0 < x) :
    0 < listMax l := by
  match l with
  | [] => exact absurd rfl hne
  | x :: xs =>
      have hle : ∀ (ys : List ℚ) (a : ℚ), a ≤ ys.foldl max a := by
        intro ys
        induction ys with
        | nil => intro a; exact le_refl a
        | cons y ys ih =>
            intro a
            exact le_trans (le_max_left a y) (ih (max a y))
      exact lt_of_lt_of_le (hpos x (List.mem_cons_self x xs)) (hle xs x)

theorem reportRPM_of_none (r : Report) (h : r.duration_stats = none) :
    reportRPM r = 0 := by
  rw [reportRPM, h]

theorem reportRPM_of_some (r : Report) (s : DurationStats)
    (h : r.duration_stats = some s) (hmax : 0 < s.max_ms) :
    reportRPM r = (r.total_requests : ℚ) / (s.max_ms / 1000 / 60) := by
  rw [reportRPM, h]
  have hm : 0 < s.max_ms / 1000 / 60 :=
    div_pos (div_pos hmax (by norm_num)) (by norm_num)
  simp only [if_pos hm]

theorem generate_report_durations_pos (requests : List RequestEntry) :
    ∀ x ∈ requests.filterMap
        (fun r => if 0 < r.duration_ms then some r.duration_ms else none),
      0 < x := by
  intro x hx
  rcases List.mem_filterMap.mp hx with ⟨r, -, hr⟩
  by_cases hd : 0 < r.duration_ms
  · rw [if_pos hd] at hr
    exact Option.some.inj hr ▸ hd
  · rw [if_neg hd] at hr
    exact absurd hr (Option.noConfusion)

theorem generate_report_stats (requests : List RequestEntry) (s : DurationStats)
    (hs : (generate_report requests).duration_stats = some s) :
    ∃ ds : List ℚ, ds ≠ [] ∧ (∀ x ∈ ds, 0 < x) ∧ s.max_ms = listMax ds := by
  by_cases h0 : requests = []
  · rw [h0] at hs
    simp [generate_report] at hs
  · simp only [generate_report, if_neg h0] at hs
    split at hs
    · simp at hs
    · next h2 =>
        refine ⟨(requests.filterMap
            (fun r => if 0 < r.duration_ms then some r.duration_ms else none)).insertionSort
              (· ≤ ·), ?_, ?_, ?_⟩
        · intro hc
          apply h2
          have := (List.perm_insertionSort (· ≤ ·)
            (requests.filterMap
              (fun r => if 0 < r.duration_ms then some r.duration_ms else none))).length_eq
          rw [hc] at this
          exact List.length_eq_zero.mp this.symm
        · intro x hx
          exact generate_report_durations_pos requests x
            ((List.perm_insertionSort (· ≤ ·) _).mem_iff.mp hx)
        · simp only [Option.some.injEq] at hs
          rw [← hs]

/-- C6: `_percentile` implements the spec's linear-interpolation rank
method: for nonempty sorted data `d` and percentile `p`, with
`index = (p/100)*(n-1)`, it returns `d[index]` when `index` is integral and
otherwise the linear interpolation between the two bracketing entries; in
particular the 50th percentile of `[10, 20, 30, 40]` is `25`, and on the
singleton list `[5]` every percentile equals `5`. -/
theorem percentile_matches_spec :
    (∀ (d : List ℚ) (p : ℚ), d ≠ [] → percentile d p = percentileSpec d p) ∧
    percentile [10, 20, 30, 40] 50 = 25 ∧
    (∀ p : ℚ, percentile [5] p = 5) :=
  ⟨percentile_eq_spec, percentile_four_fifty, fun p => percentile_single 5 p⟩

/-- Witness for C6 at a concrete input: the source percentile function and
the spec-worded one agree on `[10, 20, 30, 40]` at `p = 50`. -/
theorem percentile_matches_spec_witness :
    percentile [10, 20, 30, 40] 50 = percentileSpec [10, 20, 30, 40] 50 :=
  percentile_matches_spec.1 [10, 20, 30, 40] 50 (by simp)

/-- C9: with no outcomes recorded, `generate_report` returns total `0`, an
empty status-code histogram and no duration statistics, and the derived
requests-per-minute throughput is `0`; whenever the report carries no
duration statistics the throughput is `0` without any division, and
whenever it does carry statistics then `max_ms > 0` (durations are
filtered to be positive), so the throughput `total / (max_ms/1000/60)`
never divides by zero. -/
theorem empty_report_and_no_division_by_zero :
    generate_report [] = ⟨0, [], none⟩ ∧
    reportRPM (generate_report []) = 0 ∧
    (∀ requests : List RequestEntry,
        (generate_report requests).duration_stats = none →
        reportRPM (generate_report requests) = 0) ∧
    (∀ (requests : List RequestEntry) (s : DurationStats),
        (generate_report requests).duration_stats = some s →
        0 < s.max_ms ∧
        reportRPM (generate_report requests) =
          ((generate_report requests).total_requests : ℚ) /
            (s.max_ms / 1000 / 60)) := by
  have h1 : generate_report [] = ⟨0, [], none⟩ := by simp [generate_report]
  refine ⟨h1, by rw [h1]; rfl, ?_, ?_⟩
  · intro requests h
    exact reportRPM_of_none _ h
  · intro requests s hs
    rcases generate_report_stats requests s hs with ⟨ds, hne, hpos, hmax⟩
    have hm : 0 < s.max_ms := hmax ▸ listMax_pos ds hne hpos
    exact ⟨hm, reportRPM_of_some _ s hs hm⟩

/-- Witness for C9 at a concrete input: one successful request with a 5 ms
duration yields duration statistics with positive `max_ms` and a throughput
computed from it. -/
theorem empty_report_and_no_division_by_zero_witness :
    0 < ((⟨5, 5, 5, 5, 5, 5, 5, 5⟩ : DurationStats)).max_ms ∧
    reportRPM (generate_report [⟨200, 5, none, "a"⟩]) =
      ((generate_report [⟨200, 5, none, "a"⟩]).total_requests : ℚ) /
        ((⟨5, 5, 5, 5, 5, 5, 5, 5⟩ : DurationStats).max_ms / 1000 / 60) :=
  empty_report_and_no_division_by_zero.2.2.2 [⟨200, 5, none, "a"⟩]
    ⟨5, 5, 5, 5, 5, 5, 5, 5⟩
    (by
      have hd : ([(⟨200, 5, none, "a"⟩ : RequestEntry)].filterMap
          (fun r => if 0 < r.duration_ms then some r.duration_ms else none)) = [5] := by
        norm_num [List.filterMap_cons]
      simp [generate_report, hd, List.insertionSort, List.orderedInsert,
        listMin, listMax, percentile_single])

/-! ## Read-mode selection (`DataHandler._process_data_by_mode`)

`load_data` parses the file into `raw_data` and dispatches on the read
mode.  An empty `raw_data` returns `[]` with a warning before the mode
dispatch.  `random.sample(raw_data, count)` is embedded as the oracle value
`sample`; the Python library guarantees the sample has length `count` and
consists of elements chosen from distinct positions of `raw_data`, which is
exactly `List.Subperm sample raw_data` together with the length equation
(`SampleOK`). -/
inductive ReadMode where
  | specified_count
  | full_load
  | first_n
  | random_n
  deriving DecidableEq

/-- Embeds `DataHandler._process_data_by_mode`.  `count` is the validated
positive count (`load_data` rejects `count ≤ 0` and `None` beforehand);
`sample` stands for the value `random.sample(raw_data, count)` would
return, and is only consulted in `random_n` mode when enough data is
available. -/
def processDataByMode (mode : ReadMode) (count : Nat) (fill_with_first : Bool)
    (sample : List α) : List α → List α
  | [] => []
  | x :: rest =>
    match mode with
    | ReadMode.full_load => x :: rest
    | ReadMode.specified_count =>
        if count ≤ (x :: rest).length then (x :: rest).take count
        else if fill_with_first then
          (x :: rest) ++ List.replicate (count - (x :: rest).length) x
        else x :: rest
    | ReadMode.first_n =>
        if (x :: rest).length < count then x :: rest
        else (x :: rest).take count
    | ReadMode.random_n =>
        if (x :: rest).length < count then x :: rest
        else sample

/-- The properties `random.sample(raw, count)` guarantees for its result:
it has `count` elements, drawn without replacement from `raw` (a
permutation of a sublist of `raw`). -/
def SampleOK (raw : List α) (count : Nat) (sample : List α) : Prop :=
  sample.length = count ∧ sample.Subperm raw

/-- C7: in `specified_count` mode on a nonempty source, if the source has at
least `count` records the result is the first `count` records in source
order (whatever the fill flag); if it has fewer and fill is enabled the
result is the whole source followed by copies of the first record up to
length `count`; if fill is disabled the short list is returned unpadded.
Concretely, 3 records requested as 5 with fill yield items 0,1,2 and then
two copies of item 0. -/
theorem specified_count_mode_fill :
    (∀ (α : Type) (x : α) (rest : List α) (count : Nat) (fill : Bool)
        (sample : List α),
        (count ≤ (x :: rest).length →
          processDataByMode ReadMode.specified_count count fill sample
            (x :: rest) = (x :: rest).take count) ∧
        ((x :: rest).length < count →
          processDataByMode ReadMode.specified_count count true sample
              (x :: rest) =
            (x :: rest) ++ List.replicate (count - (x :: rest).length) x ∧
          (processDataByMode ReadMode.specified_count count true sample
              (x :: rest)).length = count ∧
          processDataByMode ReadMode.specified_count count false sample
              (x :: rest) = x :: rest)) ∧
    processDataByMode ReadMode.specified_count 5 true []
        [(0 : Nat), 1, 2] = [0, 1, 2, 0, 0] := by
  constructor
  · intro α x rest count fill sample
    constructor
    · intro h
      simp only [processDataByMode]
      rw [if_pos h]
    · intro h
      have hnot : ¬ count ≤ (x :: rest).length := not_le.mpr h
      refine ⟨?_, ?_, ?_⟩
      · simp only [processDataByMode]
        rw [if_neg hnot]
        simp only [if_true]
      · simp only [processDataByMode]
        rw [if_neg hnot]
        simp only [if_true, List.length_append, List.length_replicate,
          List.length_cons]
        simp only [List.length_cons] at h
        omega
      · simp only [processDataByMode]
        rw [if_neg hnot]
        simp only [Bool.false_eq_true, if_false]
  · rfl

/-- Witness for C7 at concrete inputs: taking 2 of 3 records returns the
first two in source order. -/
theorem specified_count_mode_fill_witness :
    processDataByMode ReadMode.specified_count 2 true []
        [(0 : Nat), 1, 2] = [0, 1, 2].take 2 :=
  ((specified_count_mode_fill.1 Nat 0 [1, 2] 2 true []).1 (by simp))

/-- C8: in `first_n` and `random_n` modes on a nonempty source, a request
for more records than are available returns all available records (a
warning, not a failure); a request for `count ≤ available` returns exactly
`count` records — the first `count` in source order for `first_n`, and for
`random_n` a sample drawn from the source without replacement, so the
result has no duplicates unless the source itself had duplicates. -/
theorem first_n_random_n_modes :
    ∀ (α : Type) (x : α) (rest : List α) (count : Nat) (sample : List α),
      ((x :: rest).length < count →
        processDataByMode ReadMode.first_n count true sample (x :: rest) =
            x :: rest ∧
        processDataByMode ReadMode.random_n count true sample (x :: rest) =
            x :: rest) ∧
      (count ≤ (x :: rest).length →
        processDataByMode ReadMode.first_n count true sample (x :: rest) =
            (x :: rest).take count ∧
        (processDataByMode ReadMode.first_n count true sample
            (x :: rest)).length = count ∧
        (SampleOK (x :: rest) count sample →
          (processDataByMode ReadMode.random_n count true sample
              (x :: rest)).length = count ∧
          ((x :: rest).Nodup →
            (processDataByMode ReadMode.random_n count true sample
                (x :: rest)).Nodup))) := by
  intro α x rest count sample
  constructor
  · intro h
    constructor <;>
      · simp only [processDataByMode]
        rw [if_pos h]
  · intro h
    have hnot : ¬ (x :: rest).length < count := not_lt.mpr h
    refine ⟨?_, ?_, ?_⟩
    · simp only [processDataByMode]
      rw [if_neg hnot]
    · simp only [processDataByMode]
      rw [if_neg hnot, List.length_take]
      simp only [List.length_cons] at h
      simp only [List.length_cons]
      omega
    · intro hok
      have hres : processDataByMode ReadMode.random_n count true sample
          (x :: rest) = sample := by
        simp only [processDataByMode]
        rw [if_neg hnot]
      refine ⟨?_, ?_⟩
      · rw [hres]; exact hok.1
      · intro hnd
        rw [hres]
        rcases hok.2 with ⟨l, hperm, hsub⟩
        exact hperm.nodup (hnd.sublist hsub)

/-- Witness for C8 at concrete inputs: drawing 2 from `[0, 1, 2]` with the
sample `[0, 1]` (a valid without-replacement sample) returns 2 records with
no duplicates. -/
theorem first_n_random_n_modes_witness :
    (processDataByMode ReadMode.random_n 2 true [(0 : Nat), 1]
        [0, 1, 2]).length = 2 ∧
    ((processDataByMode ReadMode.random_n 2 true [(0 : Nat), 1]
        [0, 1, 2]).Nodup) := by
  have h := (first_n_random_n_modes Nat 0 [1, 2] 2 [0, 1]).2 (by simp)
  have hok : SampleOK [(0 : Nat), 1, 2] 2 [0, 1] :=
    ⟨rfl, List.Sublist.subperm (by simp)⟩
  exact ⟨(h.2.2 hok).1, (h.2.2 hok).2 (by simp)⟩

end LLMRouter
